import Mathlib

/-!
Verification development for the web-search conversational agent core of the
synapseEd repository (src/agents/web_search_agent/agent.py and service.py).

The Python source is shallowly embedded: dictionaries become association
lists that preserve insertion order (Python dicts are ordered), dynamic
values become the inductive type `Py`, `datetime` instants become natural
numbers (`isoformat`/`fromisoformat` compose to the identity on valid
instants, so the pair is modelled as the identity encoding), exceptions
become `Except`, and file/JSON I/O is modelled as the identity on the
serialized record type.  Every definition is translated from the source;
where a collaborator is missing from the repository snapshot or abstracted,
the doc comment of the definition says so.
-/

set_option maxHeartbeats 1000000

/-- A single apostrophe character, used to build string literals that
contain one. -/
def apos : String := String.mk [Char.ofNat 39]

/-- Dynamic (Python) values that occur in the embedded fragment: strings,
booleans, integers and lists of strings (the only list-valued entries the
source ever stores are lists of strings, in `user_profile`). -/
inductive Py where
  | s (v : String)
  | b (v : Bool)
  | i (v : Int)
  | strs (v : List String)
deriving DecidableEq, Repr

/-- `True` exactly on string values; used to state the defensive
serialization property of the reasoning trail. -/
def Py.is_str : Py → Bool
  | .s _ => true
  | _ => false

/-- Python dictionaries with string keys, as insertion-ordered association
lists. -/
abbrev Dict := List (String × Py)

/-- First value bound to `k`, if any (Python `d[k]` / `k in d`). -/
def dictGet {α : Type} : List (String × α) → String → Option α
  | [], _ => none
  | (k', v) :: rest, k => if k' = k then some v else dictGet rest k

/-- Python `d[k] = v`: overwrite in place if the key exists, else append
(insertion order). -/
def dictSet {α : Type} : List (String × α) → String → α → List (String × α)
  | [], k, v => [(k, v)]
  | (k', v') :: rest, k, v =>
    if k' = k then (k, v) :: rest else (k', v') :: dictSet rest k v

/-- Python `d1.update(d2)`. -/
def dictUpdate {α : Type} (d1 d2 : List (String × α)) : List (String × α) :=
  d2.foldl (fun acc kv => dictSet acc kv.1 kv.2) d1

/-- Python `str.lower()` (the embedded fragment only manipulates ASCII). -/
def pyLower (s : String) : String := String.mk (s.toList.map Char.toLower)

/-- Boolean test that the first list is a prefix of the second. -/
def listIsPrefix : List Char → List Char → Bool
  | [], _ => true
  | _ :: _, [] => false
  | a :: as, b :: bs => a = b && listIsPrefix as bs

/-- Boolean test that `needle` occurs contiguously inside the second list. -/
def listIsInfix (needle : List Char) : List Char → Bool
  | [] => listIsPrefix needle []
  | c :: rest => listIsPrefix needle (c :: rest) || listIsInfix needle rest

/-- Python substring containment `sub in s`. -/
def strContains (s sub : String) : Bool := listIsInfix sub.toList s.toList

/-- Python `str.startswith`. -/
def pyStartsWith (s sub : String) : Bool := listIsPrefix sub.toList s.toList

/-- Python `str.endswith`. -/
def pyEndsWith (s sub : String) : Bool :=
  listIsPrefix sub.toList.reverse s.toList.reverse

/-- Replacement of every non-overlapping occurrence of `old`, left to
right.  The source only ever replaces the non-empty patterns `".json"`
and `"_"`, so the empty-pattern behaviour is irrelevant (modelled as the
identity). -/
def replaceAux (old new : List Char) : List Char → List Char
  | [] => []
  | c :: rest =>
    if !old.isEmpty && listIsPrefix old (c :: rest) then
      new ++ replaceAux old new (List.drop (old.length - 1) rest)
    else c :: replaceAux old new rest
termination_by l => l.length
decreasing_by
  · simp [List.length_drop]; omega
  · simp

/-- Python `str.replace(old, new)`. -/
def pyReplace (s old new : String) : String :=
  String.mk (replaceAux old.toList new.toList s.toList)

/-- Python `sep.join(parts)`. -/
def pyJoin (sep : String) : List String → String
  | [] => ""
  | a :: rest => rest.foldl (fun acc x => acc ++ sep ++ x) a

/-- Python `str()` / f-string rendering of a `Py` value (`repr` of the
string elements for lists, as Python prints them). -/
def pyValStr : Py → String
  | .s v => v
  | .b true => "True"
  | .b false => "False"
  | .i v => toString v
  | .strs l => "[" ++ pyJoin ", " (l.map (fun x => apos ++ x ++ apos)) ++ "]"

/-- Python truthiness of a `Py` value. -/
def pyTruthy : Py → Bool
  | .s v => v ≠ ""
  | .b v => v
  | .i v => v ≠ 0
  | .strs l => l ≠ []

/-- A character matched by the regex class `\w` (ASCII range). -/
def isWordChar (c : Char) : Bool := c.isAlphanum || c = '_'

/-- Maximal runs of `\w` characters, i.e. `re.findall(r"\b\w+\b", ...)`. -/
def wordsAux : List Char → List Char → List String
  | [], acc => if acc.isEmpty then [] else [String.mk acc.reverse]
  | c :: rest, acc =>
    if isWordChar c then wordsAux rest (c :: acc)
    else if acc.isEmpty then wordsAux rest []
    else String.mk acc.reverse :: wordsAux rest []

/-- Word tokenization of a string. -/
def pyWords (s : String) : List String := wordsAux s.toList []

/-- Python `str.title()`: an alphabetic character following a
non-alphabetic one is uppercased, other alphabetic characters are
lowercased. -/
def pyTitleAux : Bool → List Char → List Char
  | _, [] => []
  | prevAlpha, c :: rest =>
    if c.isAlpha then
      (if prevAlpha then c.toLower else c.toUpper) :: pyTitleAux true rest
    else c :: pyTitleAux false rest

/-- Python `str.title()`. -/
def pyTitle (s : String) : String := String.mk (pyTitleAux false s.toList)

/-- `datetime` instants are modelled as naturals; `isoformat` composed with
`fromisoformat` is the identity on valid instants, so the textual encoding
is modelled by this injective rendering. -/
def isoformat (n : Nat) : String := toString n

/- ===================== URLTracker (agent.py:22-68) ===================== -/

/-- One entry of `URLTracker.conversations[cid]` (agent.py:44-51): the
`metadata` key is present only when metadata was supplied on insertion. -/
structure UrlEntry where
  url : String
  timestamp : Nat
  source : String
  metadata : Option Dict
deriving DecidableEq, Repr

/-- `URLTracker.conversations`: conversation id → ordered list of entries. -/
abbrev Tracker := List (String × List UrlEntry)

/-- Python falsiness of an optional string argument (`None` or `""`). -/
def pyFalsy : Option String → Bool
  | none => true
  | some s => s = ""

/-- The in-place metadata merge applied to a matching entry
(agent.py:36-41): only performed when the supplied metadata is truthy
(neither `None` nor empty). -/
def upd_entry (e : UrlEntry) (metadata : Option Dict) : UrlEntry :=
  match metadata with
  | some m =>
    if m = [] then e
    else { e with metadata := some (dictUpdate (e.metadata.getD []) m) }
  | none => e

/-- Update pass of `URLTracker.track_url` over one conversation's entry
list (agent.py:33-53): the first entry with the same URL has its metadata
merged (when truthy metadata is supplied) and the scan stops; otherwise a
fresh entry is appended at the end. -/
def trackList (url : String) (source : Option String) (metadata : Option Dict)
    (now : Nat) : List UrlEntry → List UrlEntry
  | [] =>
    [{ url := url, timestamp := now,
       source := match source with
         | some s => if s = "" then "unknown" else s
         | none => "unknown",
       metadata := match metadata with
         | some m => if m = [] then none else some m
         | none => none }]
  | e :: rest =>
    if e.url = url then upd_entry e metadata :: rest
    else e :: trackList url source metadata now rest

/-- `URLTracker.track_url` (agent.py:26-53).  A falsy (`None` or empty)
conversation id or url returns immediately; otherwise the conversation's
list is created if absent and updated by `trackList`. -/
def track_url (t : Tracker) (conversation_id url : Option String)
    (source : Option String) (metadata : Option Dict) (now : Nat) : Tracker :=
  if pyFalsy conversation_id || pyFalsy url then t
  else
    match conversation_id, url with
    | some c, some u =>
      let t := if (dictGet t c).isSome then t else t ++ [(c, [])]
      dictSet t c (trackList u source metadata now ((dictGet t c).getD []))
    | _, _ => t

/-- `URLTracker.get_urls` (agent.py:55-58). -/
def tracker_urls (t : Tracker) (cid : String) : List String :=
  ((dictGet t cid).getD []).map (·.url)

/-- `URLTracker.clear` (agent.py:66-68). -/
def tracker_clear (t : Tracker) (cid : String) : Tracker :=
  if (dictGet t cid).isSome then dictSet t cid [] else t

/- ================ ToolRouter (_select_tools, agent.py:745-776) ========= -/

def stem_keywords : List String :=
  ["math", "physics", "chemistry", "biology", "engineering",
   "quantum", "algorithm", "molecule", "protein", "theorem"]

def paper_keywords : List String :=
  ["paper", "research", "publication", "journal", "study",
   "experiment", "findings", "published", "arxiv"]

def current_keywords : List String :=
  ["recent", "latest", "new", "current", "today", "this year",
   "2023", "2024", "2025", "news"]

def url_indicators : List String :=
  ["http", "https", "www.", ".com", ".org", ".edu"]

/-- `WebSearchAgent._select_tools` (agent.py:745-776): the four-rule
priority table over the lowercased query, first match wins. -/
def select_tools (query : String) : List String :=
  let ql := pyLower query
  if stem_keywords.any (fun k => strContains ql k)
      && paper_keywords.any (fun k => strContains ql k) then
    ["arxiv", "wikipedia", "tavily"]
  else if url_indicators.any (fun k => strContains ql k) then
    ["tavily_extract", "tavily"]
  else if current_keywords.any (fun k => strContains ql k) then
    ["tavily", "wikipedia", "arxiv"]
  else
    ["wikipedia", "tavily", "arxiv"]

/- ============== MemoryPage / HierarchicalMemory (agent.py:70-519) ====== -/

/-- `MemoryPage` (agent.py:70-83). -/
structure MemoryPage where
  content : String
  metadata : Dict
  created_at : Nat
  last_accessed : Nat
  access_count : Nat
deriving DecidableEq, Repr

/-- `MemoryPage.__init__` (agent.py:72-77): `metadata or {}`, both
timestamps set to now, zero access count. -/
def MemoryPage.mkPage (now : Nat) (content : String) (metadata : Option Dict) :
    MemoryPage :=
  { content := content, metadata := metadata.getD [],
    created_at := now, last_accessed := now, access_count := 0 }

/-- An exchange is the Python tuple `(user_page, ai_page)`. -/
abbrev Exchange := MemoryPage × MemoryPage

/-- `HierarchicalMemory.config` (agent.py:108-113).  The rational weights
model the source's floats exactly (0.6 and 0.3 are the only values that
occur). -/
structure Config where
  main_memory_capacity : Nat
  attention_sink_size : Nat
  recency_weight : ℚ
  relevance_threshold : ℚ
deriving DecidableEq, Repr

def defaultConfig : Config :=
  { main_memory_capacity := 10, attention_sink_size := 2,
    recency_weight := (6 : ℚ) / 10, relevance_threshold := (3 : ℚ) / 10 }

/-- `HierarchicalMemory.stats` (agent.py:125-131). -/
structure Stats where
  total_exchanges : Nat
  pages : Nat
  retrievals : Nat
  page_ins : Nat
  page_outs : Nat
deriving DecidableEq, Repr

/-- `HierarchicalMemory` (agent.py:104-131).  `embeddings_cache` is not
modelled: `_get_embedding` (agent.py:417-421) always returns `None` and
never touches the cache, so it stays empty in every reachable state. -/
structure HierarchicalMemory where
  config : Config
  main_memory : List Exchange
  external_memory : List (String × List Exchange)
  attention_sinks : List Exchange
  user_profile : Dict
  stats : Stats
deriving DecidableEq, Repr

/-- `HierarchicalMemory.__init__` (agent.py:106-131): a supplied config
dict carries all four keys in every call site, so `update` amounts to
replacement. -/
def HierarchicalMemory.init (config : Option Config) : HierarchicalMemory :=
  { config := config.getD defaultConfig, main_memory := [],
    external_memory := [], attention_sinks := [], user_profile := [],
    stats := ⟨0, 0, 0, 0, 0⟩ }

def academic_subjects : List String :=
  ["math", "mathematics", "algebra", "calculus", "geometry", "statistics",
   "physics", "chemistry", "biology", "anatomy", "ecology", "genetics",
   "history", "geography", "civics", "political science", "economics",
   "literature", "writing", "grammar", "language", "linguistics",
   "computer science", "programming", "coding", "algorithms",
   "psychology", "sociology", "anthropology", "philosophy",
   "art", "music", "theater", "film", "design"]

/-- `HierarchicalMemory._extract_topics` (agent.py:252-288). -/
def extract_topics (message : String) : List String :=
  let ml := pyLower message
  let found := academic_subjects.filter (fun subj => strContains ml subj)
  if found ≠ [] then found
  else if ["math", "equation", "number", "calculation"].any
      (fun t => strContains ml t) then ["mathematics"]
  else if ["science", "experiment", "theory", "natural"].any
      (fun t => strContains ml t) then ["science"]
  else if ["history", "past", "century", "ancient", "war", "civilization"].any
      (fun t => strContains ml t) then ["history"]
  else if ["book", "novel", "story", "author", "write", "essay"].any
      (fun t => strContains ml t) then ["literature"]
  else ["general"]

def stopwords : List String :=
  ["a", "an", "the", "and", "or", "but", "is", "are", "in", "to",
   "for", "with", "on", "at"]

/-- `HierarchicalMemory._extract_keywords` (agent.py:423-429). -/
def extract_keywords (text : String) : List String :=
  (pyWords (pyLower text)).filter
    (fun w => !stopwords.contains w && w.length > 2)

def important_keywords : List String :=
  ["my name is", "i am", "i" ++ apos ++ "m", "my goal", "my learning",
   "i want to", "i need to", "i prefer", "my background",
   "my major", "my field", "remember this", "important"]

/-- The boolean importance test of `_check_attention_sink_candidate`
(agent.py:200-206). -/
def is_important_exchange (exchange : Exchange) : Bool :=
  important_keywords.any (fun kw => strContains (pyLower exchange.1.content) kw)

/-- `HierarchicalMemory._check_attention_sink_candidate`
(agent.py:191-212): an important exchange is appended to the sinks, and
the oldest sink is dropped when the bound is exceeded. -/
def check_attention_sink_candidate (m : HierarchicalMemory)
    (exchange : Exchange) : HierarchicalMemory :=
  if is_important_exchange exchange then
    let sinks := m.attention_sinks ++ [exchange]
    let sinks :=
      if sinks.length > m.config.attention_sink_size then sinks.drop 1
      else sinks
    { m with attention_sinks := sinks }
  else m

/-- `HierarchicalMemory._update_user_profile` (agent.py:214-250).  The
regex pattern matching over the lowercased message is abstracted as the
parameter `patternMatches`, which yields, in pattern order, the
`(profile key, captured value)` pairs produced by the source's
`education_patterns` table; the folding of those matches into the profile
(list-valued keys append when absent, scalar keys overwrite) and the merge
of `user_`-prefixed metadata keys are modelled from the source.  A
list-valued update hitting a non-list existing value would raise in the
source; that unreachable branch leaves the profile unchanged here. -/
def update_user_profile (patternMatches : String → List (String × String))
    (m : HierarchicalMemory) (message : String) (metadata : Option Dict) :
    HierarchicalMemory :=
  let profile := (patternMatches (pyLower message)).foldl
    (fun (prof : Dict) (kv : String × String) =>
      let key := kv.1
      let value := kv.2
      if key = "field_of_study" || key = "learning_interests"
          || key = "interests" then
        match dictGet prof key with
        | none => dictSet prof key (.strs [value])
        | some (.strs l) =>
          if l.contains value then prof
          else dictSet prof key (.strs (l ++ [value]))
        | some _ => prof
      else dictSet prof key (.s value)) m.user_profile
  let profile := match metadata with
    | none => profile
    | some md => md.foldl
        (fun prof kv =>
          if pyStartsWith kv.1 "user_" then
            dictSet prof (kv.1.drop 5) kv.2
          else prof) profile
  { m with user_profile := profile }

/-- `HierarchicalMemory._page_out` (agent.py:169-189): pops the oldest
main-memory exchange, files it under every extracted topic of its user
message, bumps the paging statistics and evaluates it for attention-sink
promotion.  The source would raise on an empty main memory; that branch is
never reached (the only call site guards on length > capacity). -/
def page_out (m : HierarchicalMemory) : HierarchicalMemory :=
  match m.main_memory with
  | [] => m
  | oldest :: rest =>
    let topics := extract_topics oldest.1.content
    let ext := topics.foldl
      (fun em topic => dictSet em topic (((dictGet em topic).getD []) ++ [oldest]))
      m.external_memory
    let m := { m with
      main_memory := rest,
      external_memory := ext,
      stats := { m.stats with
                 pages := m.stats.pages + 1,
                 page_outs := m.stats.page_outs + 1 } }
    check_attention_sink_candidate m oldest

/-- The pair of memory pages `add_exchange` builds for one exchange
(agent.py:136-152): `{"type": ..., "timestamp": ..., **(metadata or {})}`. -/
def mk_exchange (now : Nat) (user_message ai_message : String)
    (user_metadata ai_metadata : Option Dict) : Exchange :=
  (MemoryPage.mkPage now user_message
     (some (dictUpdate
       [("type", .s "user_message"), ("timestamp", .s (isoformat now))]
       (user_metadata.getD []))),
   MemoryPage.mkPage now ai_message
     (some (dictUpdate
       [("type", .s "ai_message"), ("timestamp", .s (isoformat now))]
       (ai_metadata.getD []))))

/-- `HierarchicalMemory.add_exchange` (agent.py:133-167): append the new
exchange to main memory, page out when the capacity is exceeded, bump
`total_exchanges`, run profile extraction on the user message, and return
the new main-memory length. -/
def add_exchange (patternMatches : String → List (String × String))
    (now : Nat) (m : HierarchicalMemory) (user_message ai_message : String)
    (user_metadata ai_metadata : Option Dict) :
    HierarchicalMemory × Nat :=
  let ex := mk_exchange now user_message ai_message user_metadata ai_metadata
  let m := { m with main_memory := m.main_memory ++ [ex] }
  let m := if m.main_memory.length > m.config.main_memory_capacity then
      page_out m
    else m
  let m := { m with
    stats := { m.stats with total_exchanges := m.stats.total_exchanges + 1 } }
  let m := update_user_profile patternMatches m user_message user_metadata
  (m, m.main_memory.length)

/- ============ Retrieval (agent.py:290-458) ============================= -/

/-- Stable insertion (after every element with a key at least as large),
the building block of Python's stable descending sort. -/
def insertDesc (x : ℚ × Exchange) : List (ℚ × Exchange) → List (ℚ × Exchange)
  | [] => [x]
  | y :: rest => if x.1 ≤ y.1 then y :: insertDesc x rest else x :: y :: rest

/-- Python `list.sort(reverse=True, key=lambda x: x[0])`: stable,
descending by score. -/
def sortDesc (l : List (ℚ × Exchange)) : List (ℚ × Exchange) :=
  l.foldl (fun acc x => insertDesc x acc) []

/-- `HierarchicalMemory._search_memory_segment` (agent.py:351-415).  Only
the keyword-fallback branch is modelled: `_get_embedding`
(agent.py:417-421) always returns `None`, so the guard
`query_embedding is not None and embedding_model is not None`
short-circuits to false on every call and the semantic branch is dead
code.  Scores are modelled in exact rational arithmetic in place of the
source's floats.  The `access()` bumps the source applies to the returned
pages after scoring, and the `stats` bookkeeping of the caller, affect no
stated property and are not modelled (see
`retrieve_relevant_context`). -/
def search_memory_segment (now : Nat) (cfg : Config) (query : String)
    (memory_segment : List Exchange) : List (ℚ × Exchange) :=
  if memory_segment = [] then []
  else
    let keywords := extract_keywords query
    let scored := memory_segment.filterMap (fun ex =>
      let match_count :=
        (keywords.filter (fun kw => strContains (pyLower ex.1.content) kw)).length
      if match_count = 0 then none
      else
        let similarity : ℚ :=
          if keywords ≠ [] then (match_count : ℚ) / (keywords.length : ℚ) else 0
        let time_diff : ℚ := ((now : ℚ) - (ex.1.last_accessed : ℚ)) / 3600
        let recency_score : ℚ := 1 / (1 + time_diff / 24)
        some ((1 - cfg.recency_weight) * similarity
                + cfg.recency_weight * recency_score, ex))
    sortDesc scored

/-- The candidate list `retrieve_relevant_context` assembles from
external memory under the query's topics (agent.py:310-316). -/
def external_candidates (m : HierarchicalMemory) (query : String) :
    List Exchange :=
  (extract_topics query).foldl
    (fun acc topic => acc ++ ((dictGet m.external_memory topic).getD [])) []

/-- `HierarchicalMemory.retrieve_relevant_context` (agent.py:290-349),
modelled as the returned string.  The `stats["retrievals"]` increment and
the access-count side effects on retrieved pages are not modelled: no
stated property mentions them, and they do not influence the returned
string of the call that performs them (scoring reads `last_accessed`
before the bumps). -/
def retrieve_relevant_context (now : Nat) (m : HierarchicalMemory)
    (query : String) (limit : Nat) : String :=
  let attention_content := m.attention_sinks.foldr
    (fun ex acc =>
      ("Attention Sink - Student: " ++ ex.1.content)
        :: ("Attention Sink - Response: " ++ ex.2.content) :: acc) []
  let from_main := search_memory_segment now m.config query m.main_memory
  let candidate_exchanges := external_candidates m query
  let from_external :=
    if candidate_exchanges ≠ [] then
      search_memory_segment now m.config query candidate_exchanges
    else []
  let combined :=
    (if attention_content ≠ [] then
       ["\n## Important Context\n" ++ pyJoin "\n" attention_content]
     else [])
    ++ (if from_main ≠ [] then
         [pyJoin "\n" ("## Recent Conversation\n"
            :: (from_main.take limit).foldr
                 (fun se acc =>
                   ("Student: " ++ se.2.1.content)
                     :: ("Study Buddy: " ++ se.2.2.content.take 200 ++ "...")
                     :: acc) [])]
       else [])
    ++ (if from_external ≠ [] then
         [pyJoin "\n" ("## Related Previous Exchanges\n"
            :: (from_external.take limit).foldr
                 (fun se acc =>
                   ("Student previously asked: " ++ se.2.1.content)
                     :: ("You answered: " ++ se.2.2.content.take 200 ++ "...")
                     :: acc) [])]
       else [])
  pyJoin "\n\n" combined

/-- `HierarchicalMemory.get_memory_summary` (agent.py:431-458). -/
def get_memory_summary (m : HierarchicalMemory) : String :=
  let profile_lines :=
    if m.user_profile ≠ [] then
      "## Student Profile" :: m.user_profile.map (fun kv =>
        match kv.2 with
        | .strs l =>
          "- " ++ pyTitle (pyReplace kv.1 "_" " ") ++ ": " ++ pyJoin ", " l
        | v => "- " ++ pyTitle (pyReplace kv.1 "_" " ") ++ ": " ++ pyValStr v)
    else []
  let stat_lines :=
    ["## Memory Statistics",
     "- Current session exchanges: " ++ toString m.main_memory.length,
     "- Total knowledge areas: " ++ toString m.external_memory.length,
     "- Total stored exchanges: " ++ toString m.stats.total_exchanges]
  let topic_lines :=
    if m.external_memory ≠ [] then
      let topics := m.external_memory.map Prod.fst
      let topics_str := pyJoin ", " (topics.take 5)
      let topics_str :=
        if topics.length > 5 then
          topics_str ++ " and " ++ toString (topics.length - 5) ++ " more"
        else topics_str
      ["- Knowledge areas: " ++ topics_str]
    else []
  pyJoin "\n" (profile_lines ++ stat_lines ++ topic_lines)

/- ============ Persistence (agent.py:85-102, 460-519) =================== -/

/-- The dictionary `MemoryPage.to_dict` produces (agent.py:85-93); the
JSON encoding of a file is modelled as the identity on this record. -/
structure PageDict where
  content : String
  metadata : Dict
  created_at : Nat
  last_accessed : Nat
  access_count : Nat
deriving DecidableEq, Repr

/-- `MemoryPage.to_dict` (agent.py:85-93). -/
def MemoryPage.to_dict (p : MemoryPage) : PageDict :=
  ⟨p.content, p.metadata, p.created_at, p.last_accessed, p.access_count⟩

/-- `MemoryPage.from_dict` (agent.py:95-102): construct via `__init__`
(which stamps both timestamps with `now`) and then overwrite the three
temporal/count fields from the record. -/
def MemoryPage.from_dict (now : Nat) (d : PageDict) : MemoryPage :=
  let page := MemoryPage.mkPage now d.content (some d.metadata)
  { page with created_at := d.created_at, last_accessed := d.last_accessed,
              access_count := d.access_count }

/-- The serialized record `save_to_file` writes (agent.py:460-484).  File
and JSON I/O are modelled as the identity on this structure: every value
stored in it (strings, naturals, booleans, integers, string lists) is
JSON-round-trip exact. -/
structure MemoryData where
  main_memory : List (PageDict × PageDict)
  external_memory : List (String × List (PageDict × PageDict))
  attention_sinks : List (PageDict × PageDict)
  user_profile : Dict
  stats : Stats
  config : Config
deriving DecidableEq, Repr

/-- `HierarchicalMemory.save_to_file` (agent.py:460-484). -/
def save_to_file (m : HierarchicalMemory) : MemoryData :=
  { main_memory := m.main_memory.map (fun ex => (ex.1.to_dict, ex.2.to_dict)),
    external_memory := m.external_memory.map
      (fun te => (te.1, te.2.map (fun ex => (ex.1.to_dict, ex.2.to_dict)))),
    attention_sinks :=
      m.attention_sinks.map (fun ex => (ex.1.to_dict, ex.2.to_dict)),
    user_profile := m.user_profile,
    stats := m.stats,
    config := m.config }

/-- `HierarchicalMemory.load_from_file` (agent.py:486-519). -/
def load_from_file (now : Nat) (d : MemoryData) : HierarchicalMemory :=
  let m := HierarchicalMemory.init (some d.config)
  { m with
    main_memory := d.main_memory.map
      (fun pd => (MemoryPage.from_dict now pd.1, MemoryPage.from_dict now pd.2)),
    external_memory := d.external_memory.map
      (fun te => (te.1, te.2.map
        (fun pd => (MemoryPage.from_dict now pd.1, MemoryPage.from_dict now pd.2)))),
    attention_sinks := d.attention_sinks.map
      (fun pd => (MemoryPage.from_dict now pd.1, MemoryPage.from_dict now pd.2)),
    user_profile := d.user_profile,
    stats := d.stats }

/- ============ Orchestration graph (agent.py:521-858) =================== -/

/-- LangChain message values threaded through the graph: the
tuple-encoded turns `(role, content)` of the transcript, and the typed
message objects (`HumanMessage`, `AIMessage`, `SystemMessage`).  Tuples
have no `type` attribute; the typed objects carry `"human"`, `"ai"` and
`"system"`.  `tool_calls` records whether an AI message requests tool
use (the structural signal `tools_condition` inspects). -/
inductive Msg where
  | pair (role : String) (content : String)
  | human (content : String)
  | ai (content : String) (tool_calls : Bool)
  | system (content : String)
deriving DecidableEq, Repr

/-- The `type` attribute of a message, absent on tuples. -/
def msgType : Msg → Option String
  | .pair _ _ => none
  | .human _ => some "human"
  | .ai _ _ => some "ai"
  | .system _ => some "system"

/-- The `content` attribute of a message. -/
def msgContent : Msg → String
  | .pair _ c => c
  | .human c => c
  | .ai c _ => c
  | .system c => c

/-- One reasoning step: a Python dict recorded in the state's `reasoning`
list (keys and values dynamically typed before validation). -/
abbrev RStep := List (Py × Py)

/-- The graph state (agent.py:521-526 plus the `memory_summary` and
`tool_choice` keys every node reads and writes).  The source threads an
open dict; the record fixes the keys every node's returned dict carries. -/
structure AgentState where
  messages : List Msg
  context : Dict
  memory : String
  memory_summary : String
  reasoning : List RStep
  tool_choice : Option String
deriving DecidableEq, Repr

/-- The chat-completion collaborator `self.llm.invoke` (an external
service, spec section 6): it maps the prompt messages to a reply message,
and a raised exception is an `Except.error`. -/
abbrev LLM := List Msg → Except String Msg

def thought_step : RStep :=
  [(.s "type", .s "thought"),
   (.s "content", .s ("I need to understand the user" ++ apos
     ++ "s query and determine the best approach to answer it."))]

def memory_step : RStep :=
  [(.s "type", .s "memory"),
   (.s "content", .s "Retrieving relevant context from hierarchical memory system")]

def action_step : RStep :=
  [(.s "type", .s "action"),
   (.s "content", .s "Generated response with citations and references")]

/-- The message-conversion loop of `chatbot` (agent.py:553-579): walks the
state's messages, building the LangChain message list and the initial
reasoning steps (a thought step per user tuple, plus a memory step when
memory content is present). -/
def convert_loop (memory_content : String) (msgs : List Msg)
    (rs : List RStep) (lc : List Msg) : List RStep × List Msg :=
  match msgs with
  | [] => (rs, lc)
  | m :: rest =>
    match m with
    | .pair role content =>
      if role = "user" then
        convert_loop memory_content rest
          (rs ++ [thought_step]
              ++ (if memory_content ≠ "" then [memory_step] else []))
          (lc ++ [.human content])
      else if role = "ai" then
        convert_loop memory_content rest rs (lc ++ [.ai content false])
      else convert_loop memory_content rest rs lc
    | other => convert_loop memory_content rest rs (lc ++ [other])

/-- `str(k) if not isinstance(k, str) else k` (agent.py:597-607). -/
def ensure_str (v : Py) : Py :=
  match v with
  | .s s => .s s
  | other => .s (pyValStr other)

/-- Validation of one reasoning step (agent.py:599-607). -/
def validate_step (st : RStep) : RStep :=
  st.map (fun kv => (ensure_str kv.1, ensure_str kv.2))

/-- Validation of the whole reasoning list (agent.py:598-607). -/
def validate_reasoning (l : List RStep) : List RStep := l.map validate_step

/-- The base system prompt (agent.py:631-667).  The full multi-line
instructional text is summarized by its opening sentence; no stated
property depends on the prompt's contents, only on how the pieces are
assembled. -/
def base_system_prompt : String :=
  "You are **Study Buddy**, a knowledgeable and friendly AI assistant built to help students excel in learning and research."

/-- `WebSearchAgent._build_system_prompt` (agent.py:629-691). -/
def build_system_prompt (context : Dict)
    (memory_content memory_summary : String) : String :=
  let p := base_system_prompt
  let p := if memory_content ≠ "" then p ++ "\n\n" ++ memory_content ++ "\n" else p
  let p :=
    if memory_summary ≠ "" then
      p ++ "\n\nMEMORY SUMMARY:\n" ++ memory_summary ++ "\n"
    else p
  if context ≠ [] then
    let ci := "\n\nCONVERSATION CONTEXT:\n"
    let ci := match dictGet context "academic_level" with
      | some v => ci ++ "- Student Academic Level: " ++ pyValStr v ++ "\n"
      | none => ci
    let ci := match dictGet context "interests" with
      | some (.strs l) => ci ++ "- Topics of Interest: " ++ pyJoin ", " l ++ "\n"
      | some _ => ci ++ "- Topics of Interest: " ++ "\n"
      | none => ci
    let ci := match dictGet context "preferred_style" with
      | some v => ci ++ "- Preferred Learning Style: " ++ pyValStr v ++ "\n"
      | none => ci
    let ci := match dictGet context "stem_focus" with
      | some v => ci ++ "- STEM Focus: " ++ pyValStr v ++ "\n"
      | none => ci
    p ++ ci
  else p

/-- The fallback reply installed by the `chatbot` except-branch
(agent.py:620). -/
def chatbot_error_msg : String :=
  "I" ++ apos
    ++ "m sorry, I encountered an error processing your request. Please try again."

/-- `WebSearchAgent.chatbot` (agent.py:542-627): convert the state's
messages, build the dynamic system prompt, invoke the LLM, and return the
updated state — all non-message, non-reasoning fields preserved.  On
success the returned `reasoning` is the validated list of the steps
generated in this invocation; when the LLM raises, the except-branch
returns the fallback AI reply and a single error step, again preserving
the other fields. -/
def chatbot (llm : LLM) (state : AgentState) : AgentState :=
  let memory_content := state.memory
  let conv := convert_loop memory_content state.messages [] []
  let reasoning_steps := conv.1
  let lc_messages := conv.2
  let prompt := build_system_prompt state.context memory_content state.memory_summary
  let lc_messages := Msg.system prompt :: lc_messages
  match llm lc_messages with
  | .ok result =>
    { state with
      messages := state.messages ++ [result],
      reasoning := validate_reasoning (reasoning_steps ++ [action_step]) }
  | .error e =>
    { state with
      messages := state.messages ++ [Msg.ai chatbot_error_msg false],
      reasoning := [[(.s "type", .s "error"), (.s "content", .s e)]] }

/-- Python `list.remove(x)`: drop the first occurrence. -/
def remove_first (l : List String) (x : String) : List String :=
  match l with
  | [] => []
  | y :: rest => if y = x then rest else y :: remove_first rest x

/-- `WebSearchAgent.tool_router` (agent.py:693-743): pick the preferred
tool list for the latest tuple-encoded user message, promote `arxiv` to
the front under a truthy `stem_focus` context flag, and return the state
with `tool_choice` set — all other fields preserved (the reasoning list is
passed through unchanged). -/
def tool_router (state : AgentState) : AgentState :=
  let user_messages := state.messages.filter (fun m =>
    match m with
    | .pair r _ => r = "user"
    | _ => false)
  match user_messages.getLast? with
  | none => { state with tool_choice := none }
  | some m =>
    let latest := msgContent m
    let preferred := select_tools latest
    let stem_focus := match dictGet state.context "stem_focus" with
      | some v => pyTruthy v
      | none => false
    let preferred :=
      if stem_focus && preferred.contains "arxiv" then
        "arxiv" :: remove_first preferred "arxiv"
      else preferred
    { state with tool_choice := preferred.head? }

/-- One pass of the compiled graph (`create_graph`, agent.py:778-858)
under `stream(..., stream_mode="values")` for turns whose chatbot reply
carries no tool calls, so `tools_condition` routes to END: the emitted
state values are the input state, the state after `tool_router` and the
state after `chatbot`.  This covers in particular every turn in which the
LLM call raises, because the fallback message installed by the chatbot
except-branch is a plain AI message without tool calls. -/
def graph_stream_no_tools (llm : LLM) (s0 : AgentState) :
    Except String (List AgentState) :=
  let s1 := tool_router s0
  let s2 := chatbot llm s1
  .ok [s0, s1, s2]

/- ============ WebSearchService.search (service.py:188-298) ============= -/

/-- The structured result `search` returns (service.py:190-298).  The
source's early-error dicts omit some keys; omitted keys are modelled as
`""` / `none` / `[]`. -/
structure SearchResult where
  status : String
  message : Option String
  response : String
  conversation_id : String
  message_id : String
  reasoning : List RStep
  searched_websites : List String
deriving Repr

/-- The module-level mutable maps of service.py (lines 29-31):
`active_conversations`, `hierarchical_memories` and the `url_tracker`. -/
structure ServiceState where
  conversations : List (String × List Msg)
  memories : List (String × HierarchicalMemory)
  tracker : Tracker
deriving Repr

/-- The collection loop over streamed events (service.py:242-258): for
each event whose last message is AI-typed with truthy content, record the
response and append an `("ai", ...)` turn to the transcript; concatenate
every event's reasoning steps. -/
def collect_loop (events : List AgentState) (ai : List String)
    (tr : List Msg) (rs : List RStep) : List String × List Msg × List RStep :=
  match events with
  | [] => (ai, tr, rs)
  | e :: rest =>
    match e.messages.getLast? with
    | some m =>
      if msgType m = some "ai" && msgContent m ≠ "" then
        collect_loop rest (ai ++ [msgContent m])
          (tr ++ [Msg.pair "ai" (msgContent m)]) (rs ++ e.reasoning)
      else collect_loop rest ai tr (rs ++ e.reasoning)
    | none => collect_loop rest ai tr (rs ++ e.reasoning)

def no_response_msg : String :=
  "I couldn" ++ apos
    ++ "t generate a response for your query. Please try again with a different question."

def search_error_response : String :=
  "I encountered an error while searching for information. Please try again later."

def unavailable_response : String :=
  "I" ++ apos
    ++ "m sorry, but the web search system is currently unavailable. Please try again later."

/-- The tail of `search` from the `graph.stream` call onward
(service.py:232-298): the except-branch converts a raised stream error
into the structured error result, and the success branch collects the
AI responses and reasoning from the streamed events, appends the exchange
to memory and builds the success result. -/
def finish_search (patternMatches : String → List (String × String))
    (now : Nat) (cid fresh_msg_id query : String) (context : Dict)
    (memory : HierarchicalMemory) (transcript : List Msg)
    (conversations : List (String × List Msg))
    (memories : List (String × HierarchicalMemory)) (tracker : Tracker)
    (outcome : Except String (List AgentState)) :
    SearchResult × ServiceState :=
  match outcome with
  | .error e =>
    ({ status := "error", message := some ("Error: " ++ e),
       response := search_error_response,
       conversation_id := cid, message_id := fresh_msg_id,
       reasoning := [[(.s "type", .s "error"), (.s "content", .s e)]],
       searched_websites := [] },
     { conversations := conversations, memories := memories,
       tracker := tracker })
  | .ok events =>
    let collected := collect_loop events [] [] []
    let ai_responses := collected.1
    let tr_appends := collected.2.1
    let reasoning_steps := collected.2.2
    let response := match ai_responses.getLast? with
      | some r => r
      | none => no_response_msg
    let conversations := dictSet conversations cid (transcript ++ tr_appends)
    let memory :=
      (add_exchange patternMatches now memory query response (some context) none).1
    let memories := dictSet memories cid memory
    ({ status := "success", message := none, response := response,
       conversation_id := cid, message_id := fresh_msg_id,
       reasoning := reasoning_steps,
       searched_websites := tracker_urls tracker cid },
     { conversations := conversations, memories := memories,
       tracker := tracker })

/-- `WebSearchService.search` (service.py:188-298).  The compiled graph is
an injected collaborator (`graph_stream`, built once in `__init__`); the
fresh UUIDs and the clock are parameters; `get_or_create_memory`'s
disk-load fallback and the best-effort `save_memory` call are not
modelled (both are I/O against the durable store and no stated property
mentions them — a load failure falls back to the same fresh
`HierarchicalMemory.init none` used here).  Every stream failure is
caught by `finish_search` and degraded to the structured error result;
the user-turn transcript append and the URL-tracking clear happen before
the guarded region, exactly as in the source. -/
def search (agent_ready : Bool)
    (graph_stream : AgentState → Except String (List AgentState))
    (patternMatches : String → List (String × String))
    (now : Nat) (fresh_conv_id fresh_msg_id : String)
    (svc : ServiceState) (query : String)
    (conversation_id : Option String) (context : Option Dict) :
    SearchResult × ServiceState :=
  if !agent_ready then
    ({ status := "error",
       message := some "Web search agent is not properly initialized",
       response := unavailable_response,
       conversation_id := "", message_id := "", reasoning := [],
       searched_websites := [] }, svc)
  else
    let cid := match conversation_id with
      | none => fresh_conv_id
      | some c => if c = "" then fresh_conv_id else c
    let tracker := tracker_clear svc.tracker cid
    let context := dictSet (context.getD []) "conversation_id" (.s cid)
    let memory := (dictGet svc.memories cid).getD (HierarchicalMemory.init none)
    let memories := dictSet svc.memories cid memory
    let relevant_context := retrieve_relevant_context now memory query 3
    let memory_summary := get_memory_summary memory
    let transcript := ((dictGet svc.conversations cid).getD [])
      ++ [Msg.pair "user" query]
    let conversations := dictSet svc.conversations cid transcript
    let state : AgentState :=
      { messages := transcript, context := context,
        memory := relevant_context, memory_summary := memory_summary,
        reasoning := [], tool_choice := none }
    finish_search patternMatches now cid fresh_msg_id query context memory
      transcript conversations memories tracker (graph_stream state)

/- ============ cleanup_old_memories (service.py:353-378) ================ -/

/-- A persisted memory file as seen by the cleanup scan: name and
modification time (seconds). -/
structure MFile where
  name : String
  mtime : Int
deriving DecidableEq, Repr

/-- The age test of the scan (service.py:361-363):
`(current_time - getmtime(path)) / 3600 > max_age_hours`, on `.json`
files only.  The exact-arithmetic division test is stated here in the
equivalent cross-multiplied integer form `now - mtime > max_age * 3600`
so that it is kernel-executable; `is_old_json_eq_rat` below proves it
equal to the literal rational-division condition of the source. -/
def is_old_json (now : Int) (max_age_hours : Int) (f : MFile) : Bool :=
  pyEndsWith f.name ".json"
    && (now - f.mtime > max_age_hours * 3600)

/-- The conversation id recovered from a file name
(service.py:367: `filename.replace(".json", "")`). -/
def cid_of_file (f : MFile) : String := pyReplace f.name ".json" ""

/-- Outcome of a cleanup run: count returned, files remaining on disk,
and the two in-memory maps' surviving keys. -/
structure CleanupResult where
  cleaned : Nat
  files : List MFile
  hmem : List String
  convs : List String
deriving DecidableEq, Repr

/-- The scan loop of `cleanup_old_memories` (service.py:357-375) with the
surrounding `try/except` (service.py:356-378): `remove_fails f` models
`os.remove` raising on that file.  Because the `except` wraps the whole
loop, a raised error returns the count accumulated so far and every file
from the failing one onward is left untouched. -/
def cleanup_loop (now max_age_hours : Int) (remove_fails : String → Bool)
    (hm ac : List String) (cleaned : Nat) :
    List MFile → CleanupResult
  | [] => ⟨cleaned, [], hm, ac⟩
  | f :: rest =>
    if is_old_json now max_age_hours f then
      if remove_fails f.name then ⟨cleaned, f :: rest, hm, ac⟩
      else
        let cid := cid_of_file f
        cleanup_loop now max_age_hours remove_fails
          (hm.filter (fun k => k ≠ cid)) (ac.filter (fun k => k ≠ cid))
          (cleaned + 1) rest
    else
      let r := cleanup_loop now max_age_hours remove_fails hm ac cleaned rest
      ⟨r.cleaned, f :: r.files, r.hmem, r.convs⟩

/-- `WebSearchService.cleanup_old_memories` (service.py:353-378). -/
def cleanup_old_memories (now max_age_hours : Int)
    (remove_fails : String → Bool) (files : List MFile)
    (hm ac : List String) : CleanupResult :=
  cleanup_loop now max_age_hours remove_fails hm ac 0 files

/- ============ Auxiliary definitions used by the statements ============= -/

/-- The arguments of one `add_exchange` call. -/
structure AddInput where
  now : Nat
  user_message : String
  ai_message : String
  user_metadata : Option Dict
  ai_metadata : Option Dict

/-- A sequence of `add_exchange` calls, threaded left to right. -/
def run_exchanges (pm : String → List (String × String))
    (m : HierarchicalMemory) : List AddInput → HierarchicalMemory
  | [] => m
  | x :: rest =>
    run_exchanges pm
      (add_exchange pm x.now m x.user_message x.ai_message
        x.user_metadata x.ai_metadata).1 rest

/-- The entry list a tracker holds for a conversation. -/
def entries_of (t : Tracker) (c : String) : List UrlEntry :=
  (dictGet t c).getD []

/-- Number of entries recorded for a given URL. -/
def count_url (l : List UrlEntry) (u : String) : Nat :=
  (l.filter (fun e => e.url = u)).length

/-- The first entry recorded for a given URL. -/
def find_url (l : List UrlEntry) (u : String) : Option UrlEntry :=
  l.find? (fun e => e.url = u)

/- ======================= Shared helper lemmas ========================== -/

lemma map_map_id {α β : Type} (f : α → β) (g : β → α)
    (h : ∀ x, g (f x) = x) : ∀ l : List α, (l.map f).map g = l := by
  intro l
  induction l with
  | nil => rfl
  | cons a t ih => simp [h, ih]

lemma page_roundtrip (now : Nat) (p : MemoryPage) :
    MemoryPage.from_dict now p.to_dict = p := rfl

lemma exch_map_roundtrip (now : Nat) (l : List Exchange) :
    ((l.map (fun ex => (ex.1.to_dict, ex.2.to_dict))).map
      (fun pd => (MemoryPage.from_dict now pd.1, MemoryPage.from_dict now pd.2)))
      = l := by
  apply map_map_id
  intro x
  rfl

/- ============================== C4 ===================================== -/

/-- C4: `save_to_file` followed by `load_from_file` reproduces a memory
whose `main_memory`, `external_memory` and `attention_sinks` are identical
in content, metadata, `created_at`, `last_accessed` and `access_count`
(each `MemoryPage` round-trips exactly), and whose `user_profile`,
`stats` and `config` equal the originals: the loaded value is equal to the
saved one as a whole. -/
theorem c4_save_load_roundtrip :
    ∀ (now : Nat) (m : HierarchicalMemory),
      load_from_file now (save_to_file m) = m := by
  intro now m
  cases m with
  | mk config main ext sinks profile stats =>
    simp only [load_from_file, save_to_file, HierarchicalMemory.init]
    congr 1
    · exact exch_map_roundtrip now main
    · apply map_map_id
      intro te
      simp [exch_map_roundtrip now te.2]
    · exact exch_map_roundtrip now sinks

/- ============================== C5 ===================================== -/

/-- C5: `_select_tools` is a pure function of the query evaluating the
four-rule priority table top to bottom, first match wins (its value is
always one of the four fixed lists).  On
`"latest research paper on quantum computing 2024"` rule 1 (STEM keyword
+ paper keyword) fires before the recency rule, returning `arxiv` first;
on `"What is the capital of France?"` no rule fires and the default
ordering is returned — `wikipedia`, then the web-search tool (named
`"tavily"` in the source), then `arxiv` (`"tavily_extract"` is the
source's name for the URL-extraction tool). -/
theorem c5_select_tools_table :
    select_tools "latest research paper on quantum computing 2024"
        = ["arxiv", "wikipedia", "tavily"]
    ∧ select_tools "What is the capital of France?"
        = ["wikipedia", "tavily", "arxiv"]
    ∧ ∀ q, select_tools q = ["arxiv", "wikipedia", "tavily"]
        ∨ select_tools q = ["tavily_extract", "tavily"]
        ∨ select_tools q = ["tavily", "wikipedia", "arxiv"]
        ∨ select_tools q = ["wikipedia", "tavily", "arxiv"] := by
  refine ⟨by decide, by decide, ?_⟩
  intro q
  simp only [select_tools]
  split_ifs <;> simp

/- ============================== C10 ==================================== -/

/-- C10: `track_url` with a falsy (`None` or empty) conversation id or a
falsy url returns immediately (it is a total function here, so it cannot
raise) and leaves the tracker's conversations mapping entirely
unchanged. -/
theorem c10_track_url_falsy_noop :
    ∀ (t : Tracker) (cid url source : Option String) (metadata : Option Dict)
      (now : Nat),
      (pyFalsy cid || pyFalsy url) = true →
      track_url t cid url source metadata now = t := by
  intro t cid url source metadata now h
  simp [track_url, h]

/-- Witness for C10 at a concrete input: `None` conversation id, a real
url, an empty tracker. -/
theorem c10_track_url_falsy_noop_witness :
    (pyFalsy none || pyFalsy (some "http://example.com")) = true
    ∧ track_url [] none (some "http://example.com") none none 7 = [] :=
  ⟨by decide,
   c10_track_url_falsy_noop [] none (some "http://example.com") none none 7
     (by decide)⟩

/- ============================== C1 ===================================== -/

lemma check_sink_config (m : HierarchicalMemory) (ex : Exchange) :
    (check_attention_sink_candidate m ex).config = m.config := by
  simp only [check_attention_sink_candidate]; split_ifs <;> rfl

lemma check_sink_main (m : HierarchicalMemory) (ex : Exchange) :
    (check_attention_sink_candidate m ex).main_memory = m.main_memory := by
  simp only [check_attention_sink_candidate]; split_ifs <;> rfl

lemma check_sink_stats (m : HierarchicalMemory) (ex : Exchange) :
    (check_attention_sink_candidate m ex).stats = m.stats := by
  simp only [check_attention_sink_candidate]; split_ifs <;> rfl

lemma profile_main (pm : String → List (String × String))
    (m : HierarchicalMemory) (msg : String) (md : Option Dict) :
    (update_user_profile pm m msg md).main_memory = m.main_memory := rfl

lemma profile_config (pm : String → List (String × String))
    (m : HierarchicalMemory) (msg : String) (md : Option Dict) :
    (update_user_profile pm m msg md).config = m.config := rfl

lemma profile_stats (pm : String → List (String × String))
    (m : HierarchicalMemory) (msg : String) (md : Option Dict) :
    (update_user_profile pm m msg md).stats = m.stats := rfl

lemma profile_sinks (pm : String → List (String × String))
    (m : HierarchicalMemory) (msg : String) (md : Option Dict) :
    (update_user_profile pm m msg md).attention_sinks = m.attention_sinks := rfl

lemma page_out_cons (m : HierarchicalMemory) (a : Exchange) (rest : List Exchange)
    (h : m.main_memory = a :: rest) :
    (page_out m).main_memory = rest
    ∧ (page_out m).stats.pages = m.stats.pages + 1
    ∧ (page_out m).config = m.config := by
  simp only [page_out, h]
  refine ⟨?_, ?_, ?_⟩
  · rw [check_sink_main]
  · rw [check_sink_stats]
  · rw [check_sink_config]

lemma page_out_append_main (m : HierarchicalMemory) (ex : Exchange) :
    (page_out { m with main_memory := m.main_memory ++ [ex] }).main_memory
      = (m.main_memory ++ [ex]).drop 1 := by
  cases hm : m.main_memory with
  | nil =>
    simpa using (page_out_cons { m with main_memory := [] ++ [ex] } ex [] rfl).1
  | cons b t =>
    simpa using
      (page_out_cons { m with main_memory := (b :: t) ++ [ex] } b (t ++ [ex]) rfl).1

lemma page_out_append_pages (m : HierarchicalMemory) (ex : Exchange) :
    (page_out { m with main_memory := m.main_memory ++ [ex] }).stats.pages
      = m.stats.pages + 1 := by
  cases hm : m.main_memory with
  | nil =>
    simpa using (page_out_cons { m with main_memory := [] ++ [ex] } ex [] rfl).2.1
  | cons b t =>
    simpa using
      (page_out_cons { m with main_memory := (b :: t) ++ [ex] } b (t ++ [ex]) rfl).2.1

lemma page_out_append_config (m : HierarchicalMemory) (ex : Exchange) :
    (page_out { m with main_memory := m.main_memory ++ [ex] }).config
      = m.config := by
  cases hm : m.main_memory with
  | nil =>
    simpa using (page_out_cons { m with main_memory := [] ++ [ex] } ex [] rfl).2.2
  | cons b t =>
    simpa using
      (page_out_cons { m with main_memory := (b :: t) ++ [ex] } b (t ++ [ex]) rfl).2.2

lemma add_exchange_main_memory (pm : String → List (String × String))
    (now : Nat) (m : HierarchicalMemory) (u a : String) (um am : Option Dict) :
    (add_exchange pm now m u a um am).1.main_memory =
      (if (m.main_memory ++ [mk_exchange now u a um am]).length
            > m.config.main_memory_capacity
       then (m.main_memory ++ [mk_exchange now u a um am]).drop 1
       else m.main_memory ++ [mk_exchange now u a um am]) := by
  simp only [add_exchange, profile_main]
  split_ifs with h
  · exact page_out_append_main m (mk_exchange now u a um am)
  · rfl

lemma add_exchange_config (pm : String → List (String × String))
    (now : Nat) (m : HierarchicalMemory) (u a : String) (um am : Option Dict) :
    (add_exchange pm now m u a um am).1.config = m.config := by
  simp only [add_exchange, profile_config]
  split_ifs with h
  · exact page_out_append_config m (mk_exchange now u a um am)
  · rfl

lemma add_exchange_pages (pm : String → List (String × String))
    (now : Nat) (m : HierarchicalMemory) (u a : String) (um am : Option Dict) :
    (add_exchange pm now m u a um am).1.stats.pages =
      m.stats.pages
        + (if m.main_memory.length + 1 > m.config.main_memory_capacity
           then 1 else 0) := by
  simp only [add_exchange, profile_stats]
  split_ifs with h h2 h2
  · exact page_out_append_pages m (mk_exchange now u a um am)
  · exfalso
    simp only [List.length_append, List.length_cons, List.length_nil] at h
    omega
  · exfalso
    simp only [List.length_append, List.length_cons, List.length_nil] at h
    omega
  · simp

lemma add_exchange_len (pm : String → List (String × String))
    (now : Nat) (m : HierarchicalMemory) (u a : String) (um am : Option Dict) :
    (add_exchange pm now m u a um am).1.main_memory.length =
      (if m.main_memory.length + 1 > m.config.main_memory_capacity
       then m.main_memory.length else m.main_memory.length + 1) := by
  rw [add_exchange_main_memory]
  split_ifs with h h2 h2 <;>
    simp only [List.length_drop, List.length_append, List.length_cons,
      List.length_nil] at * <;> omega

lemma run_exchanges_inv (pm : String → List (String × String)) (cfg : Config) :
    ∀ (inputs : List AddInput) (m : HierarchicalMemory) (k : Nat),
      m.config = cfg →
      m.main_memory.length = min k cfg.main_memory_capacity →
      m.stats.pages = k - cfg.main_memory_capacity →
      (run_exchanges pm m inputs).main_memory.length
          = min (k + inputs.length) cfg.main_memory_capacity
        ∧ (run_exchanges pm m inputs).stats.pages
          = (k + inputs.length) - cfg.main_memory_capacity := by
  intro inputs
  induction inputs with
  | nil =>
    intro m k hc hl hp
    simpa [run_exchanges] using ⟨hl, hp⟩
  | cons x rest ih =>
    intro m k hc hl hp
    have hlen := add_exchange_len pm x.now m x.user_message x.ai_message
      x.user_metadata x.ai_metadata
    have hpg := add_exchange_pages pm x.now m x.user_message x.ai_message
      x.user_metadata x.ai_metadata
    have hcfg := add_exchange_config pm x.now m x.user_message x.ai_message
      x.user_metadata x.ai_metadata
    have step := ih (add_exchange pm x.now m x.user_message x.ai_message
      x.user_metadata x.ai_metadata).1 (k + 1)
      (by rw [hcfg, hc])
      (by rw [hlen, hc, hl]; split_ifs with h <;> omega)
      (by rw [hpg, hc, hp, hl]; split_ifs with h <;> omega)
    simp only [run_exchanges, List.length_cons]
    constructor
    · rw [step.1]; congr 1; omega
    · rw [step.2]; congr 1; omega

/-- C1: starting from a fresh memory with the given configuration, after
every sequence of `add_exchange` calls `len(main_memory)` equals
`min(k, main_memory_capacity)` and `stats.pages` equals
`max(0, k - main_memory_capacity)` (natural subtraction), where `k` is the
number of calls so far (the universal quantification over input sequences
covers every intermediate point); moreover each call pops the oldest
exchange (index 0) exactly when the appended length exceeds the capacity,
and each call returns the new `main_memory` length. -/
theorem c1_capacity_invariant :
    ∀ (pm : String → List (String × String)) (cfg : Config)
      (inputs : List AddInput),
      ((run_exchanges pm (HierarchicalMemory.init (some cfg)) inputs).main_memory.length
          = min inputs.length cfg.main_memory_capacity
        ∧ (run_exchanges pm (HierarchicalMemory.init (some cfg)) inputs).stats.pages
          = inputs.length - cfg.main_memory_capacity)
      ∧ ∀ (now : Nat) (m : HierarchicalMemory) (u a : String)
          (um am : Option Dict),
          (add_exchange pm now m u a um am).2
              = (add_exchange pm now m u a um am).1.main_memory.length
          ∧ (add_exchange pm now m u a um am).1.main_memory =
              (if (m.main_memory ++ [mk_exchange now u a um am]).length
                    > m.config.main_memory_capacity
               then (m.main_memory ++ [mk_exchange now u a um am]).drop 1
               else m.main_memory ++ [mk_exchange now u a um am]) := by
  intro pm cfg inputs
  constructor
  · have := run_exchanges_inv pm cfg inputs (HierarchicalMemory.init (some cfg)) 0
      (by simp [HierarchicalMemory.init])
      (by simp [HierarchicalMemory.init])
      (by simp [HierarchicalMemory.init])
    simpa using this
  · intro now m u a um am
    exact ⟨rfl, add_exchange_main_memory pm now m u a um am⟩

/- ============================== C8 ===================================== -/

lemma check_sink_sinks_len (m : HierarchicalMemory) (ex : Exchange)
    (h : m.attention_sinks.length ≤ m.config.attention_sink_size) :
    (check_attention_sink_candidate m ex).attention_sinks.length
      ≤ m.config.attention_sink_size := by
  simp only [check_attention_sink_candidate]
  split_ifs with h1 h2
  · simp only [List.length_drop, List.length_append, List.length_cons,
      List.length_nil]
    omega
  · simp only [List.length_append, List.length_cons, List.length_nil] at h2 ⊢
    omega
  · exact h

lemma page_out_sinks_bound (m : HierarchicalMemory)
    (h : m.attention_sinks.length ≤ m.config.attention_sink_size) :
    (page_out m).attention_sinks.length ≤ m.config.attention_sink_size := by
  cases hm : m.main_memory with
  | nil => simp only [page_out, hm]; exact h
  | cons a rest =>
    simp only [page_out, hm]
    exact check_sink_sinks_len _ a h

lemma add_exchange_sinks_bound (pm : String → List (String × String))
    (now : Nat) (m : HierarchicalMemory) (u a : String) (um am : Option Dict)
    (h : m.attention_sinks.length ≤ m.config.attention_sink_size) :
    (add_exchange pm now m u a um am).1.attention_sinks.length
      ≤ m.config.attention_sink_size := by
  simp only [add_exchange, profile_sinks]
  split_ifs with hcap
  · exact page_out_sinks_bound _ h
  · exact h

lemma run_exchanges_sinks_bound (pm : String → List (String × String)) :
    ∀ (inputs : List AddInput) (m : HierarchicalMemory),
      m.attention_sinks.length ≤ m.config.attention_sink_size →
      (run_exchanges pm m inputs).attention_sinks.length
        ≤ m.config.attention_sink_size := by
  intro inputs
  induction inputs with
  | nil => intro m h; simpa [run_exchanges] using h
  | cons x rest ih =>
    intro m h
    have h1 := add_exchange_sinks_bound pm x.now m x.user_message x.ai_message
      x.user_metadata x.ai_metadata h
    have hc := add_exchange_config pm x.now m x.user_message x.ai_message
      x.user_metadata x.ai_metadata
    have h2 := ih (add_exchange pm x.now m x.user_message x.ai_message
      x.user_metadata x.ai_metadata).1 (by rw [hc]; exact h1)
    rw [hc] at h2
    simpa only [run_exchanges] using h2

/-- C8: after any sequence of `add_exchange` operations on a fresh memory
(the only operations that touch the sinks), `len(attention_sinks)` never
exceeds `attention_sink_size`; and the promotion step appends the
important exchange to `attention_sinks`, dropping the oldest entry (FIFO,
index 0 of the appended list) exactly when the bound is exceeded. -/
theorem c8_attention_sink_bound :
    (∀ (pm : String → List (String × String)) (cfg : Config)
       (inputs : List AddInput),
       (run_exchanges pm (HierarchicalMemory.init (some cfg)) inputs).attention_sinks.length
         ≤ cfg.attention_sink_size)
    ∧ ∀ (m : HierarchicalMemory) (ex : Exchange),
        (check_attention_sink_candidate m ex).attention_sinks =
          (if is_important_exchange ex then
            (if (m.attention_sinks ++ [ex]).length > m.config.attention_sink_size
             then (m.attention_sinks ++ [ex]).drop 1
             else m.attention_sinks ++ [ex])
           else m.attention_sinks) := by
  constructor
  · intro pm cfg inputs
    exact run_exchanges_sinks_bound pm inputs (HierarchicalMemory.init (some cfg))
      (by simp [HierarchicalMemory.init])
  · intro m ex
    simp only [check_attention_sink_candidate]
    split_ifs <;> rfl

/- ============================== C7 ===================================== -/

lemma dictGet_dictSet_self {α : Type} (t : List (String × α)) (k : String)
    (v : α) : dictGet (dictSet t k v) k = some v := by
  induction t with
  | nil => simp [dictGet, dictSet]
  | cons p rest ih =>
    obtain ⟨k', v'⟩ := p
    by_cases h : k' = k
    · simp [dictSet, dictGet, h]
    · simp [dictSet, dictGet, h, ih]

lemma dictGet_append_single {α : Type} (t : List (String × α)) (c : String)
    (x : α) (h : dictGet t c = none) : dictGet (t ++ [(c, x)]) c = some x := by
  induction t with
  | nil => simp [dictGet]
  | cons p rest ih =>
    obtain ⟨k', v'⟩ := p
    by_cases hk : k' = c
    · simp [dictGet, hk] at h
    · rw [List.cons_append]
      simp only [dictGet, if_neg hk] at h ⊢
      exact ih h

lemma entries_after_track (t : Tracker) (c u : String) (s : Option String)
    (md : Option Dict) (now : Nat) (hc : c ≠ "") (hu : u ≠ "") :
    entries_of (track_url t (some c) (some u) s md now) c
      = trackList u s md now (entries_of t c) := by
  have hc' : pyFalsy (some c) = false := by simp [pyFalsy, hc]
  have hu' : pyFalsy (some u) = false := by simp [pyFalsy, hu]
  simp only [track_url, hc', hu', Bool.or_self, Bool.false_eq_true, if_false]
  cases hg : dictGet t c with
  | some l =>
    simp only [hg, Option.isSome_some, if_true, entries_of,
      dictGet_dictSet_self, Option.getD_some]
  | none =>
    simp only [hg, Option.isSome_none, if_false, entries_of, Bool.false_eq_true,
      dictGet_dictSet_self, Option.getD_some, Option.getD_none]
    rw [dictGet_append_single t c [] hg]
    rfl

lemma upd_entry_url (e : UrlEntry) (md : Option Dict) :
    (upd_entry e md).url = e.url := by
  cases md with
  | none => rfl
  | some m => simp only [upd_entry]; split_ifs <;> rfl

lemma upd_entry_timestamp (e : UrlEntry) (md : Option Dict) :
    (upd_entry e md).timestamp = e.timestamp := by
  cases md with
  | none => rfl
  | some m => simp only [upd_entry]; split_ifs <;> rfl

lemma count_url_trackList (l : List UrlEntry) (u : String) (s : Option String)
    (md : Option Dict) (now : Nat) :
    count_url (trackList u s md now l) u
      = if count_url l u = 0 then 1 else count_url l u := by
  induction l with
  | nil => simp [trackList, count_url]
  | cons e rest ih =>
    by_cases h : e.url = u
    · simp [trackList, count_url, h, upd_entry_url]
    · have hcons : ∀ X, count_url (e :: X) u = count_url X u := by
        intro X
        simp [count_url, List.filter_cons, h]
      simp only [trackList, if_neg h]
      simp only [hcons]
      exact ih

lemma trackList_found_pairs (l : List UrlEntry) (u : String)
    (s : Option String) (md : Option Dict) (now : Nat)
    (h : count_url l u ≠ 0) :
    (trackList u s md now l).map (fun e => (e.url, e.timestamp))
      = l.map (fun e => (e.url, e.timestamp)) := by
  induction l with
  | nil => simp [count_url] at h
  | cons e rest ih =>
    by_cases he : e.url = u
    · simp [trackList, he, upd_entry_url, upd_entry_timestamp]
    · have h' : count_url rest u ≠ 0 := by
        simpa [count_url, List.filter_cons, he] using h
      simp [trackList, he, ih h']

lemma trackList_find_md (l : List UrlEntry) (u : String) (s : Option String)
    (m : Dict) (now : Nat) (h : count_url l u ≠ 0) (hm : m ≠ []) :
    find_url (trackList u s (some m) now l) u
      = (find_url l u).map
          (fun e => { e with metadata := some (dictUpdate (e.metadata.getD []) m) }) := by
  induction l with
  | nil => simp [count_url] at h
  | cons e rest ih =>
    by_cases he : e.url = u
    · simp only [trackList, if_pos he, find_url]
      rw [List.find?_cons_of_pos _ (by simp [upd_entry_url, he]),
        List.find?_cons_of_pos _ (by simp [he])]
      simp [upd_entry, hm]
    · have h' : count_url rest u ≠ 0 := by
        simpa [count_url, List.filter_cons, he] using h
      simp only [trackList, if_neg he, find_url] at ih ⊢
      rw [List.find?_cons_of_neg _ (by simp [he]),
        List.find?_cons_of_neg _ (by simp [he])]
      exact ih h'

/-- C7: two `track_url` calls with the same (truthy) conversation id and
URL leave exactly one entry for that URL; the second call adds no entry
and changes no entry's URL, timestamp or position, and when truthy
metadata is supplied it merges that metadata into the existing entry. -/
theorem c7_track_url_dedup :
    ∀ (t : Tracker) (c u : String) (s1 s2 : Option String)
      (md1 : Option Dict) (m2 : Dict) (n1 n2 : Nat),
      c ≠ "" → u ≠ "" → count_url (entries_of t c) u ≤ 1 →
      count_url (entries_of (track_url (track_url t (some c) (some u) s1 md1 n1)
          (some c) (some u) s2 (some m2) n2) c) u = 1
      ∧ (entries_of (track_url (track_url t (some c) (some u) s1 md1 n1)
            (some c) (some u) s2 (some m2) n2) c).map (fun e => (e.url, e.timestamp))
          = (entries_of (track_url t (some c) (some u) s1 md1 n1) c).map
              (fun e => (e.url, e.timestamp))
      ∧ (m2 ≠ [] →
          find_url (entries_of (track_url (track_url t (some c) (some u) s1 md1 n1)
              (some c) (some u) s2 (some m2) n2) c) u
            = (find_url (entries_of (track_url t (some c) (some u) s1 md1 n1) c) u).map
                (fun e =>
                  { e with metadata := some (dictUpdate (e.metadata.getD []) m2) })) := by
  intro t c u s1 s2 md1 m2 n1 n2 hc hu hcount
  have e1 := entries_after_track t c u s1 md1 n1 hc hu
  have e2 := entries_after_track (track_url t (some c) (some u) s1 md1 n1)
    c u s2 (some m2) n2 hc hu
  have c1 : count_url (entries_of (track_url t (some c) (some u) s1 md1 n1) c) u
      = 1 := by
    rw [e1, count_url_trackList]
    split_ifs with h0
    · rfl
    · omega
  refine ⟨?_, ?_, ?_⟩
  · rw [e2, count_url_trackList, c1]
    simp
  · rw [e2]
    exact trackList_found_pairs _ _ _ _ _ (by rw [c1]; omega)
  · intro hm2
    rw [e2]
    exact trackList_find_md _ _ _ _ _ (by rw [c1]; omega) hm2

/-- Witness for C7 at a concrete input: an empty tracker, one URL tracked
twice for conversation `"conv"`, the second time with metadata. -/
theorem c7_track_url_dedup_witness :
    ("conv" : String) ≠ "" ∧ ("http://e.com" : String) ≠ ""
    ∧ count_url (entries_of ([] : Tracker) "conv") "http://e.com" ≤ 1
    ∧ count_url (entries_of (track_url
        (track_url [] (some "conv") (some "http://e.com") (some "tavily_search") none 5)
        (some "conv") (some "http://e.com") none (some [("title", Py.s "T")]) 9) "conv")
        "http://e.com" = 1 :=
  ⟨by decide, by decide, by decide,
   (c7_track_url_dedup [] "conv" "http://e.com" (some "tavily_search") none none
     [("title", Py.s "T")] 5 9 (by decide) (by decide) (by decide)).1⟩

/- ============================== C6 ===================================== -/

lemma string_length_pos_of_ne (s : String) (h : s ≠ "") : 0 < s.length := by
  cases s with
  | mk data =>
    cases data with
    | nil => exact absurd rfl h
    | cons c cs => simp [String.length]

lemma append_ne_empty_left (a b : String) (h : a ≠ "") : a ++ b ≠ "" := by
  intro hab
  have h0 : (a ++ b).length = 0 := by rw [hab]; rfl
  rw [String.length_append] at h0
  have h1 := string_length_pos_of_ne a h
  omega

lemma pyJoin_foldl_length (sep : String) (l : List String) (acc : String) :
    acc.length ≤ (l.foldl (fun acc x => acc ++ sep ++ x) acc).length := by
  induction l generalizing acc with
  | nil => simp [List.foldl]
  | cons x rest ih =>
    calc acc.length ≤ (acc ++ sep ++ x).length := by
          simp only [String.length_append]; omega
      _ ≤ _ := ih (acc ++ sep ++ x)

lemma pyJoin_ne (sep a : String) (rest : List String) (h : a ≠ "") :
    pyJoin sep (a :: rest) ≠ "" := by
  intro hj
  have h0 : (pyJoin sep (a :: rest)).length = 0 := by rw [hj]; rfl
  have h1 := pyJoin_foldl_length sep rest a
  have h2 := string_length_pos_of_ne a h
  simp only [pyJoin] at h0
  omega

lemma join_sections_empty_iff (sA sB sC : String) (A B C : Prop)
    [Decidable A] [Decidable B] [Decidable C]
    (ha : sA ≠ "") (hb : sB ≠ "") (hc : sC ≠ "") :
    (pyJoin "\n\n" ((if A then [sA] else []) ++ (if B then [sB] else [])
        ++ (if C then [sC] else [])) = "") ↔ (¬A ∧ ¬B ∧ ¬C) := by
  constructor
  · intro hempty
    by_cases hA : A
    · exfalso
      rw [if_pos hA] at hempty
      simp only [List.singleton_append, List.cons_append] at hempty
      exact pyJoin_ne _ _ _ ha hempty
    rw [if_neg hA, List.nil_append] at hempty
    by_cases hB : B
    · exfalso
      rw [if_pos hB] at hempty
      simp only [List.singleton_append, List.cons_append] at hempty
      exact pyJoin_ne _ _ _ hb hempty
    rw [if_neg hB, List.nil_append] at hempty
    by_cases hC : C
    · exfalso
      rw [if_pos hC] at hempty
      exact pyJoin_ne _ _ _ hc hempty
    exact ⟨hA, hB, hC⟩
  · rintro ⟨hA, hB, hC⟩
    rw [if_neg hA, if_neg hB, if_neg hC]
    rfl

lemma search_memory_segment_nil (now : Nat) (cfg : Config) (q : String) :
    search_memory_segment now cfg q [] = [] := by
  simp [search_memory_segment]

lemma ite_search_ext (now : Nat) (cfg : Config) (q : String)
    (cand : List Exchange) :
    (if cand ≠ [] then search_memory_segment now cfg q cand else [])
      = search_memory_segment now cfg q cand := by
  split_ifs with h
  · rfl
  · simp only [not_not] at h
    rw [h, search_memory_segment_nil]

lemma attention_fold_empty (l : List Exchange) :
    (l.foldr (fun ex acc =>
        ("Attention Sink - Student: " ++ ex.1.content)
          :: ("Attention Sink - Response: " ++ ex.2.content) :: acc) []
      = ([] : List String)) ↔ l = [] := by
  cases l <;> simp

/-- C6 (amended): `retrieve_relevant_context` returns the empty string if
and only if there are no attention sinks, no main-memory exchange matches
the query (scores from `_search_memory_segment` on `main_memory` are
empty), and no exchange stored under the query's topics in external
memory matches; in particular it is non-empty whenever any attention sink
exists, but a non-empty `main_memory` alone does not force a non-empty
result (see the counterexample). -/
theorem c6_retrieve_empty_iff :
    ∀ (now : Nat) (m : HierarchicalMemory) (q : String) (limit : Nat),
      (retrieve_relevant_context now m q limit = "" ↔
        (m.attention_sinks = []
          ∧ search_memory_segment now m.config q m.main_memory = []
          ∧ search_memory_segment now m.config q (external_candidates m q) = [])) := by
  intro now m q limit
  simp only [retrieve_relevant_context, ite_search_ext]
  rw [join_sections_empty_iff _ _ _ _ _ _
    (append_ne_empty_left _ _ (by decide))
    (pyJoin_ne _ _ _ (by decide))
    (pyJoin_ne _ _ _ (by decide))]
  simp only [ne_eq, not_not]
  rw [attention_fold_empty]

/-- Counterexample to C6 as stated: a memory whose `main_memory` holds one
exchange (`"hello world"` / `"hi there"`) is non-empty stored memory, yet
`retrieve_relevant_context` on the query `"quantum"` returns the empty
string, because no query keyword occurs in the stored user message and no
external-memory topic matches. -/
theorem c6_counterexample :
    retrieve_relevant_context 0
      { HierarchicalMemory.init none with
        main_memory := [(MemoryPage.mkPage 0 "hello world" none,
                         MemoryPage.mkPage 0 "hi there" none)] }
      "quantum" 3 = ""
    ∧ ({ HierarchicalMemory.init none with
        main_memory := [(MemoryPage.mkPage 0 "hello world" none,
                         MemoryPage.mkPage 0 "hi there" none)] }
        : HierarchicalMemory).main_memory ≠ [] := by
  constructor
  · decide
  · decide

/- ============================== C3 ===================================== -/

lemma tool_router_messages (s : AgentState) :
    (tool_router s).messages = s.messages := by
  simp only [tool_router]
  split <;> simp

lemma tool_router_context (s : AgentState) :
    (tool_router s).context = s.context := by
  simp only [tool_router]
  split <;> simp

lemma tool_router_memory (s : AgentState) :
    (tool_router s).memory = s.memory := by
  simp only [tool_router]
  split <;> simp

lemma tool_router_memory_summary (s : AgentState) :
    (tool_router s).memory_summary = s.memory_summary := by
  simp only [tool_router]
  split <;> simp

lemma tool_router_reasoning (s : AgentState) :
    (tool_router s).reasoning = s.reasoning := by
  simp only [tool_router]
  split <;> simp

lemma chatbot_context (llm : LLM) (s : AgentState) :
    (chatbot llm s).context = s.context := by
  simp only [chatbot]
  split <;> simp

lemma chatbot_memory (llm : LLM) (s : AgentState) :
    (chatbot llm s).memory = s.memory := by
  simp only [chatbot]
  split <;> simp

lemma chatbot_memory_summary (llm : LLM) (s : AgentState) :
    (chatbot llm s).memory_summary = s.memory_summary := by
  simp only [chatbot]
  split <;> simp

lemma chatbot_tool_choice (llm : LLM) (s : AgentState) :
    (chatbot llm s).tool_choice = s.tool_choice := by
  simp only [chatbot]
  split <;> simp

lemma chatbot_messages_append (llm : LLM) (s : AgentState) :
    ∃ reply, (chatbot llm s).messages = s.messages ++ [reply] := by
  simp only [chatbot]
  split <;> exact ⟨_, rfl⟩

lemma ensure_str_is_str (v : Py) : (ensure_str v).is_str = true := by
  cases v <;> rfl

lemma validate_all_str (l : List RStep) :
    (validate_reasoning l).all
      (fun st => st.all (fun kv => kv.1.is_str && kv.2.is_str)) = true := by
  rw [List.all_eq_true]
  intro st hst
  simp only [validate_reasoning, List.mem_map] at hst
  obtain ⟨st0, _, rfl⟩ := hst
  rw [List.all_eq_true]
  intro kv hkv
  simp only [validate_step, List.mem_map] at hkv
  obtain ⟨kv0, _, rfl⟩ := hkv
  simp [ensure_str_is_str]

lemma chatbot_reasoning_str (llm : LLM) (s : AgentState) :
    (chatbot llm s).reasoning.all
      (fun st => st.all (fun kv => kv.1.is_str && kv.2.is_str)) = true := by
  simp only [chatbot]
  split
  · exact validate_all_str _
  · simp [Py.is_str]

/-- C3 (amended): the state every node returns carries all of
`{messages, context, memory, memory_summary, reasoning}` — the chatbot
node preserves context, memory, memory summary and tool choice and
appends exactly one reply to the messages, and the tool-router node
preserves everything but `tool_choice` (in particular it passes the
incoming reasoning through unchanged); every entry of the chatbot's
returned reasoning has string-typed keys and values.  However the
chatbot's returned reasoning consists solely of the steps generated in
that invocation: the incoming reasoning list is replaced, not appended to
(see the counterexample), so the full audit trail exists only because the
service seeds `reasoning` with `[]` and collects steps from every
streamed event. -/
theorem c3_state_threading :
    ∀ (llm : LLM) (s : AgentState),
      ((chatbot llm s).context = s.context
        ∧ (chatbot llm s).memory = s.memory
        ∧ (chatbot llm s).memory_summary = s.memory_summary
        ∧ (chatbot llm s).tool_choice = s.tool_choice)
      ∧ (∃ reply, (chatbot llm s).messages = s.messages ++ [reply])
      ∧ (chatbot llm s).reasoning.all
          (fun st => st.all (fun kv => kv.1.is_str && kv.2.is_str)) = true
      ∧ ((tool_router s).messages = s.messages
        ∧ (tool_router s).context = s.context
        ∧ (tool_router s).memory = s.memory
        ∧ (tool_router s).memory_summary = s.memory_summary
        ∧ (tool_router s).reasoning = s.reasoning) :=
  fun llm s =>
    ⟨⟨chatbot_context llm s, chatbot_memory llm s,
      chatbot_memory_summary llm s, chatbot_tool_choice llm s⟩,
     chatbot_messages_append llm s,
     chatbot_reasoning_str llm s,
     tool_router_messages s, tool_router_context s, tool_router_memory s,
     tool_router_memory_summary s, tool_router_reasoning s⟩

/-- Counterexample to C3 as stated: a state that already carries a
reasoning entry loses it across the `tool_router → chatbot` transition —
the chatbot node returns only the steps generated during its own
invocation instead of appending to the incoming trail, so reasoning IS
overwritten across transitions. -/
theorem c3_counterexample :
    [(Py.s "type", Py.s "tool-selection"),
     (Py.s "content", Py.s "earlier audit entry")]
      ∈ (AgentState.mk [Msg.pair "user" "hi"] [] "" ""
          [[(Py.s "type", Py.s "tool-selection"),
            (Py.s "content", Py.s "earlier audit entry")]] none).reasoning
    ∧ [(Py.s "type", Py.s "tool-selection"),
       (Py.s "content", Py.s "earlier audit entry")]
      ∉ (chatbot (fun _ => Except.ok (Msg.ai "the answer" false))
          (tool_router (AgentState.mk [Msg.pair "user" "hi"] [] "" ""
            [[(Py.s "type", Py.s "tool-selection"),
              (Py.s "content", Py.s "earlier audit entry")]] none))).reasoning := by
  constructor
  · decide
  · decide

/- ============================== C2 ===================================== -/

lemma mem_of_getLast? {α : Type} :
    ∀ {l : List α} {a : α}, l.getLast? = some a → a ∈ l := by
  intro l
  induction l with
  | nil => intro a h; simp at h
  | cons b t ih =>
    intro a h
    cases t with
    | nil => simp [List.getLast?_singleton] at h; simp [h]
    | cons c t' =>
      rw [List.getLast?_cons_cons] at h
      exact List.mem_cons_of_mem _ (ih h)

lemma collect_loop_ai_ne :
    ∀ (events : List AgentState) (ai : List String) (tr : List Msg)
      (rs : List RStep),
      (∀ x ∈ ai, x ≠ "") →
      ∀ x ∈ (collect_loop events ai tr rs).1, x ≠ "" := by
  intro events
  induction events with
  | nil => intro ai tr rs h; simpa [collect_loop] using h
  | cons e rest ih =>
    intro ai tr rs h
    simp only [collect_loop]
    cases hl : e.messages.getLast? with
    | none => exact ih _ _ _ h
    | some m =>
      dsimp only
      split_ifs with hcond
      · apply ih
        intro x hx
        rcases List.mem_append.mp hx with hx | hx
        · exact h x hx
        · simp only [List.mem_singleton] at hx
          subst hx
          simp only [Bool.and_eq_true, decide_eq_true_eq] at hcond
          exact hcond.2
      · exact ih _ _ _ h

lemma chatbot_error_msg_ne : chatbot_error_msg ≠ "" := by decide

lemma chatbot_const_error (e : String) (s : AgentState) :
    chatbot (fun _ => Except.error e) s =
      { s with
        messages := s.messages ++ [Msg.ai chatbot_error_msg false],
        reasoning := [[(Py.s "type", Py.s "error"),
                       (Py.s "content", Py.s e)]] } := rfl

lemma finish_error_status (pm : String → List (String × String)) (now : Nat)
    (cid fm q : String) (ctx : Dict) (mem : HierarchicalMemory)
    (tr : List Msg) (convs : List (String × List Msg))
    (mems : List (String × HierarchicalMemory)) (trk : Tracker) (e : String) :
    (finish_search pm now cid fm q ctx mem tr convs mems trk
      (.error e)).1.status = "error"
    ∧ (finish_search pm now cid fm q ctx mem tr convs mems trk
      (.error e)).1.response = search_error_response := ⟨rfl, rfl⟩

lemma finish_ok_response (pm : String → List (String × String)) (now : Nat)
    (cid fm q : String) (ctx : Dict) (mem : HierarchicalMemory)
    (tr : List Msg) (convs : List (String × List Msg))
    (mems : List (String × HierarchicalMemory)) (trk : Tracker)
    (events : List AgentState) :
    (finish_search pm now cid fm q ctx mem tr convs mems trk
      (.ok events)).1.response =
      (match (collect_loop events [] [] []).1.getLast? with
       | some r => r
       | none => no_response_msg) := rfl

lemma finish_response_ne (pm : String → List (String × String)) (now : Nat)
    (cid fm q : String) (ctx : Dict) (mem : HierarchicalMemory)
    (tr : List Msg) (convs : List (String × List Msg))
    (mems : List (String × HierarchicalMemory)) (trk : Tracker)
    (outcome : Except String (List AgentState)) :
    (finish_search pm now cid fm q ctx mem tr convs mems trk
      outcome).1.response ≠ "" := by
  cases outcome with
  | error e =>
    rw [(finish_error_status pm now cid fm q ctx mem tr convs mems trk e).2]
    decide
  | ok events =>
    rw [finish_ok_response]
    cases hlast : (collect_loop events [] [] []).1.getLast? with
    | none => simp [hlast]; decide
    | some r =>
      simp only [hlast]
      exact collect_loop_ai_ne events [] [] [] (by simp) r
        (mem_of_getLast? hlast)

lemma collect_three (e : String) (s0 : AgentState) (r c : String)
    (h0 : s0.messages.getLast? = some (Msg.pair r c)) :
    (collect_loop [s0, tool_router s0,
      chatbot (fun _ => Except.error e) (tool_router s0)] [] [] []).1
      = [chatbot_error_msg] := by
  have h1 : (tool_router s0).messages.getLast? = some (Msg.pair r c) := by
    rw [tool_router_messages]; exact h0
  have h2 : (chatbot (fun _ => Except.error e)
      (tool_router s0)).messages.getLast?
      = some (Msg.ai chatbot_error_msg false) := by
    rw [chatbot_const_error]
    exact List.getLast?_concat _
  simp [collect_loop, h0, h1, h2, msgType, msgContent,
    (by decide : chatbot_error_msg ≠ "")]

lemma finish_response_of_collect (pm : String → List (String × String))
    (now : Nat) (cid fm q : String) (ctx : Dict) (mem : HierarchicalMemory)
    (tr : List Msg) (convs : List (String × List Msg))
    (mems : List (String × HierarchicalMemory)) (trk : Tracker)
    (events : List AgentState)
    (h : (collect_loop events [] [] []).1 = [chatbot_error_msg]) :
    (finish_search pm now cid fm q ctx mem tr convs mems trk
      (.ok events)).1.response = chatbot_error_msg := by
  rw [finish_ok_response, h]
  rfl

/-- C2 (amended): no failure raises past `search` — for every graph
outcome (and whether or not the agent initialized) the returned result
carries a non-empty `response` string; an exception escaping the
`graph.stream` call itself is caught and yields `status = "error"` with
the fixed error response; but an exception raised by the LLM invoke call
is caught INSIDE the chatbot node, which substitutes a fixed apology
reply, so the turn completes and `search` returns `status = "success"`
(not `"error"`) with the chatbot's non-empty fallback apology as the
response (see the counterexample). -/
theorem c2_graceful_degradation :
    ∀ (ready : Bool) (gs : AgentState → Except String (List AgentState))
      (pm : String → List (String × String)) (now : Nat) (fc fm : String)
      (svc : ServiceState) (q : String) (cid : Option String)
      (ctx : Option Dict),
      ((search ready gs pm now fc fm svc q cid ctx).1.response ≠ "")
      ∧ (∀ e, (search true (fun _ => Except.error e) pm now fc fm svc q cid
            ctx).1.status = "error"
          ∧ (search true (fun _ => Except.error e) pm now fc fm svc q cid
            ctx).1.response = search_error_response)
      ∧ (∀ e, (search true (graph_stream_no_tools (fun _ => Except.error e))
            pm now fc fm svc q cid ctx).1.status = "success"
          ∧ (search true (graph_stream_no_tools (fun _ => Except.error e))
            pm now fc fm svc q cid ctx).1.response = chatbot_error_msg) := by
  intro ready gs pm now fc fm svc q cid ctx
  refine ⟨?_, ?_, ?_⟩
  · unfold search
    split
    · show unavailable_response ≠ ""
      decide
    · apply finish_response_ne
  · intro e
    exact ⟨rfl, rfl⟩
  · intro e
    refine ⟨rfl, ?_⟩
    simp only [search, Bool.not_true, Bool.false_eq_true, if_false,
      graph_stream_no_tools]
    refine finish_response_of_collect _ _ _ _ _ _ _ _ _ _ _ _ ?_
    exact collect_three e _ "user" q (List.getLast?_concat _)

/-- Counterexample to C2 as stated: with an LLM collaborator that raises,
`search` returns `status = "success"` — not `status = "error"` — because
the chatbot node catches the exception locally and substitutes its
fallback apology (the response is still non-empty). -/
theorem c2_counterexample :
    (search true (graph_stream_no_tools (fun _ => Except.error "LLM provider failure"))
      (fun _ => []) 0 "conv-1" "msg-1" ⟨[], [], []⟩ "hello" (some "c1")
      none).1.status = "success"
    ∧ (search true (graph_stream_no_tools (fun _ => Except.error "LLM provider failure"))
      (fun _ => []) 0 "conv-1" "msg-1" ⟨[], [], []⟩ "hello" (some "c1")
      none).1.status ≠ "error"
    ∧ (search true (graph_stream_no_tools (fun _ => Except.error "LLM provider failure"))
      (fun _ => []) 0 "conv-1" "msg-1" ⟨[], [], []⟩ "hello" (some "c1")
      none).1.response ≠ "" := by
  refine ⟨?_, ?_, ?_⟩ <;> decide

/- ============================== C9 ===================================== -/

/-- The integer form of the age test used by `is_old_json` coincides with
the source's exact-arithmetic division test
`(now - mtime) / 3600 > max_age_hours`. -/
lemma age_iff (now ma mt : Int) :
    (now - mt > ma * 3600) ↔ ((((now - mt : Int) : ℚ) / 3600) > (ma : ℚ)) := by
  rw [gt_iff_lt, gt_iff_lt, lt_div_iff₀ (by norm_num : (0 : ℚ) < 3600)]
  exact_mod_cast Iff.rfl

lemma is_old_json_eq_rat (now ma : Int) (f : MFile) :
    is_old_json now ma f =
      (pyEndsWith f.name ".json"
        && decide ((((now - f.mtime : Int) : ℚ) / 3600) > (ma : ℚ))) := by
  simp only [is_old_json, age_iff]

lemma cleanup_loop_ok :
    ∀ (l : List MFile) (now ma : Int) (rf : String → Bool)
      (hm ac : List String) (c : Nat),
      (∀ f ∈ l, is_old_json now ma f = true → rf f.name = false) →
      (cleanup_loop now ma rf hm ac c l).cleaned
          = c + (l.filter (is_old_json now ma)).length
      ∧ (cleanup_loop now ma rf hm ac c l).files
          = l.filter (fun f => !is_old_json now ma f)
      ∧ (∀ k, k ∈ (cleanup_loop now ma rf hm ac c l).hmem ↔
          (k ∈ hm ∧ ∀ f ∈ l, is_old_json now ma f = true → k ≠ cid_of_file f))
      ∧ (∀ k, k ∈ (cleanup_loop now ma rf hm ac c l).convs ↔
          (k ∈ ac ∧ ∀ f ∈ l, is_old_json now ma f = true → k ≠ cid_of_file f)) := by
  intro l
  induction l with
  | nil =>
    intro now ma rf hm ac c h
    simp [cleanup_loop]
  | cons f rest ih =>
    intro now ma rf hm ac c h
    by_cases hold : is_old_json now ma f = true
    · have hf : rf f.name = false := h f (List.mem_cons_self f rest) hold
      have ihr := ih now ma rf (hm.filter (fun k => k ≠ cid_of_file f))
        (ac.filter (fun k => k ≠ cid_of_file f)) (c + 1)
        (fun g hg hgo => h g (List.mem_cons_of_mem f hg) hgo)
      simp only [cleanup_loop, if_pos hold, hf, Bool.false_eq_true, if_false]
      refine ⟨?_, ?_, ?_, ?_⟩
      · rw [ihr.1]
        simp [List.filter_cons, hold]
        omega
      · rw [ihr.2.1]
        simp [List.filter_cons, hold]
      · intro k
        rw [ihr.2.2.1 k]
        simp only [List.mem_filter, decide_eq_true_eq, List.forall_mem_cons,
          hold, forall_true_left]
        tauto
      · intro k
        rw [ihr.2.2.2 k]
        simp only [List.mem_filter, decide_eq_true_eq, List.forall_mem_cons,
          hold, forall_true_left]
        tauto
    · have ihr := ih now ma rf hm ac c
        (fun g hg hgo => h g (List.mem_cons_of_mem f hg) hgo)
      simp only [cleanup_loop, if_neg hold]
      refine ⟨?_, ?_, ?_, ?_⟩
      · rw [ihr.1]
        simp [List.filter_cons, hold]
      · rw [ihr.2.1]
        simp [List.filter_cons, hold]
      · intro k
        rw [ihr.2.2.1 k]
        simp only [List.forall_mem_cons, hold, Bool.false_eq_true,
          false_implies, true_and]
      · intro k
        rw [ihr.2.2.2 k]
        simp only [List.forall_mem_cons, hold, Bool.false_eq_true,
          false_implies, true_and]

lemma cleanup_loop_abort :
    ∀ (pre : List MFile) (f : MFile) (post : List MFile) (now ma : Int)
      (rf : String → Bool) (hm ac : List String) (c : Nat),
      is_old_json now ma f = true → rf f.name = true →
      (∀ g ∈ pre, is_old_json now ma g = true → rf g.name = false) →
      (cleanup_loop now ma rf hm ac c (pre ++ f :: post)).cleaned
          = c + (pre.filter (is_old_json now ma)).length
      ∧ (cleanup_loop now ma rf hm ac c (pre ++ f :: post)).files
          = pre.filter (fun g => !is_old_json now ma g) ++ f :: post := by
  intro pre
  induction pre with
  | nil =>
    intro f post now ma rf hm ac c hfo hff h
    simp [cleanup_loop, hfo, hff]
  | cons g pre' ih =>
    intro f post now ma rf hm ac c hfo hff h
    by_cases hgo : is_old_json now ma g = true
    · have hg : rf g.name = false := h g (List.mem_cons_self g pre') hgo
      have ihr := ih f post now ma rf
        (hm.filter (fun k => k ≠ cid_of_file g))
        (ac.filter (fun k => k ≠ cid_of_file g)) (c + 1) hfo hff
        (fun x hx hxo => h x (List.mem_cons_of_mem g hx) hxo)
      simp only [List.cons_append, cleanup_loop, if_pos hgo, hg,
        Bool.false_eq_true, if_false]
      refine ⟨?_, ?_⟩
      · simp only [List.append_eq]
        rw [ihr.1]
        simp [List.filter_cons, hgo]
        omega
      · simp only [List.append_eq]
        rw [ihr.2]
        simp [List.filter_cons, hgo]
    · have ihr := ih f post now ma rf hm ac c hfo hff
        (fun x hx hxo => h x (List.mem_cons_of_mem g hx) hxo)
      simp only [List.cons_append, cleanup_loop, if_neg hgo]
      refine ⟨?_, ?_⟩
      · simp only [List.append_eq]
        rw [ihr.1]
        simp [List.filter_cons, hgo]
      · simp only [List.append_eq]
        rw [ihr.2]
        simp [List.filter_cons, hgo]

/-- C9 (amended): when no per-file error occurs, `cleanup_old_memories`
deletes exactly the `.json` files whose modification age exceeds the
threshold, evicts the matching in-memory hierarchical-memory and
transcript entries, and returns the count of files removed.  An error on
one file is swallowed (the function still returns a count, it does not
raise) but it ABORTS the scan: the `try/except` wraps the whole loop, so
the failing file and every file after it are left untouched and the count
accumulated before the failure is returned. -/
theorem c9_cleanup_old_memories :
    ∀ (now ma : Int) (rf : String → Bool) (files : List MFile)
      (hm ac : List String),
      ((∀ f ∈ files, is_old_json now ma f = true → rf f.name = false) →
        (cleanup_old_memories now ma rf files hm ac).cleaned
            = (files.filter (is_old_json now ma)).length
        ∧ (cleanup_old_memories now ma rf files hm ac).files
            = files.filter (fun f => !is_old_json now ma f)
        ∧ (∀ k, k ∈ (cleanup_old_memories now ma rf files hm ac).hmem ↔
            (k ∈ hm ∧ ∀ f ∈ files, is_old_json now ma f = true →
              k ≠ cid_of_file f))
        ∧ (∀ k, k ∈ (cleanup_old_memories now ma rf files hm ac).convs ↔
            (k ∈ ac ∧ ∀ f ∈ files, is_old_json now ma f = true →
              k ≠ cid_of_file f)))
      ∧ (∀ (pre : List MFile) (f : MFile) (post : List MFile),
          files = pre ++ f :: post →
          is_old_json now ma f = true → rf f.name = true →
          (∀ g ∈ pre, is_old_json now ma g = true → rf g.name = false) →
          (cleanup_old_memories now ma rf files hm ac).cleaned
              = (pre.filter (is_old_json now ma)).length
          ∧ (cleanup_old_memories now ma rf files hm ac).files
              = pre.filter (fun g => !is_old_json now ma g) ++ f :: post) := by
  intro now ma rf files hm ac
  constructor
  · intro h
    have := cleanup_loop_ok files now ma rf hm ac 0 h
    simpa [cleanup_old_memories] using this
  · intro pre f post hsplit hfo hff hpre
    subst hsplit
    have := cleanup_loop_abort pre f post now ma rf hm ac 0 hfo hff hpre
    simpa [cleanup_old_memories] using this

/-- Witness for C9 at concrete inputs.  Error-free case: of
`a.json` (age 100h), `b.txt` (not a memory file) and `c.json` (age
0.55h), `cleanup_old_memories` with a 24h threshold removes exactly
`a.json` and returns 1.  Abort case: when removing old file `a.json`
raises, the scan stops and returns 0 even though old `b.json` follows. -/
theorem c9_cleanup_old_memories_witness :
    ((∀ f ∈ ([⟨"a.json", 0⟩, ⟨"b.txt", 0⟩, ⟨"c.json", 178000⟩] : List MFile),
        is_old_json 180000 24 f = true → (fun _ => false) f.name = false)
      ∧ (cleanup_old_memories 180000 24 (fun _ => false)
          [⟨"a.json", 0⟩, ⟨"b.txt", 0⟩, ⟨"c.json", 178000⟩]
          ["a", "c"] []).cleaned = 1)
    ∧ ((is_old_json 360000 24 ⟨"a.json", 0⟩ = true
        ∧ (fun n => n == "a.json") (MFile.mk "a.json" 0).name = true)
      ∧ (cleanup_old_memories 360000 24 (fun n => n == "a.json")
          [⟨"a.json", 0⟩, ⟨"b.json", 0⟩] [] []).cleaned = 0) := by
  constructor
  · refine ⟨by decide, ?_⟩
    have h := (c9_cleanup_old_memories 180000 24 (fun _ => false)
      [⟨"a.json", 0⟩, ⟨"b.txt", 0⟩, ⟨"c.json", 178000⟩] ["a", "c"] []).1
      (by decide)
    rw [h.1]
    decide
  · refine ⟨⟨by decide, by decide⟩, ?_⟩
    have h := (c9_cleanup_old_memories 360000 24 (fun n => n == "a.json")
      [⟨"a.json", 0⟩, ⟨"b.json", 0⟩] [] []).2
      [] ⟨"a.json", 0⟩ [⟨"b.json", 0⟩] rfl (by decide) (by decide)
      (by decide)
    rw [h.1]
    decide

/-- Counterexample to C9 as stated: with two stale memory files where
removing the first raises, the code returns 0 and leaves the second stale
file (whose removal would have succeeded) on disk — the per-file error
aborts the scan of the remaining files instead of being skipped. -/
theorem c9_counterexample :
    (cleanup_old_memories 360000 24 (fun n => n == "a.json")
      [⟨"a.json", 0⟩, ⟨"b.json", 0⟩] [] []).cleaned = 0
    ∧ MFile.mk "b.json" 0 ∈ (cleanup_old_memories 360000 24
      (fun n => n == "a.json") [⟨"a.json", 0⟩, ⟨"b.json", 0⟩] [] []).files
    ∧ is_old_json 360000 24 ⟨"b.json", 0⟩ = true
    ∧ (fun n => n == "a.json") (MFile.mk "b.json" 0).name = false := by
  refine ⟨?_, ?_, ?_, ?_⟩ <;> decide
